import Mathlib

/-!
Verification of the synthclock core against its natural-language
specification.  The definitions below are a shallow embedding of the
TypeScript sources:

* `src/app/src/core/theory/ToneClock.ts` (tone-clock theory engine),
* `src/app/src/core/time/TimeDilator.ts` (virtual time engine),
* `src/app/src/core/audio/AudioEngine.ts` (audio channel manager and
  arpeggiator),
* `src/app/src/hooks/useStore.ts` (preset parameter updates), and
* the main app component (preset-change reconciliation effects).

Machine numbers are modelled as `Int`/`Nat`; JavaScript exceptions are
modelled with `Except`; decibel values, which in the source are either
finite numbers or `-Infinity`, are modelled by the inductive type `Db`.
-/

namespace SynthClock

/-! ## Tone Clock theory engine (`ToneClock.ts`) -/

/-- Tessellation data of a tone-clock hour: the four trichords that tile the
chromatic scale and the transposition intervals used (`ToneClock.ts`). -/
structure Tessellation where
  transpositions : List (List Nat)
  steeringPattern : List Nat
  deriving DecidableEq, Repr

/-- One of the 12 hours of the tone clock (`ToneClockHour` in
`ToneClock.ts`).  The purely cosmetic `forteNumber`, `description` and
`color` string fields are omitted; every field used by the core logic is
kept. -/
structure ToneClockHour where
  hour : Int
  name : String
  ipf : Int × Int
  pitchClassSet : List Nat
  isSymmetrical : Bool
  tessellation : Option Tessellation
  deriving DecidableEq, Repr

/-- Hour 1 (Chromatic) of `TONE_CLOCK_HOURS`. -/
def hourRecord1 : ToneClockHour :=
  { hour := 1, name := "Chromatic", ipf := (1, 1), pitchClassSet := [0, 1, 2]
    isSymmetrical := true
    tessellation := some { transpositions := [[0, 1, 2], [3, 4, 5], [6, 7, 8], [9, 10, 11]]
                           steeringPattern := [0, 3, 6, 9] } }

/-- Hour 2 (Phrygian) of `TONE_CLOCK_HOURS`. -/
def hourRecord2 : ToneClockHour :=
  { hour := 2, name := "Phrygian", ipf := (1, 2), pitchClassSet := [0, 1, 3]
    isSymmetrical := false
    tessellation := some { transpositions := [[0, 1, 3], [4, 5, 7], [8, 9, 11], [2, 6, 10]]
                           steeringPattern := [0, 4, 8, 2] } }

/-- Hour 3 (Minor Third Cluster) of `TONE_CLOCK_HOURS`. -/
def hourRecord3 : ToneClockHour :=
  { hour := 3, name := "Minor Third Cluster", ipf := (1, 3), pitchClassSet := [0, 1, 4]
    isSymmetrical := false
    tessellation := some { transpositions := [[0, 1, 4], [3, 7, 8], [5, 6, 9], [2, 10, 11]]
                           steeringPattern := [0, 3, 5, 2] } }

/-- Hour 4 (Major Third Cluster) of `TONE_CLOCK_HOURS`. -/
def hourRecord4 : ToneClockHour :=
  { hour := 4, name := "Major Third Cluster", ipf := (1, 4), pitchClassSet := [0, 1, 5]
    isSymmetrical := false
    tessellation := some { transpositions := [[0, 1, 5], [2, 6, 7], [4, 8, 9], [3, 10, 11]]
                           steeringPattern := [0, 2, 4, 3] } }

/-- Hour 5 (Tritone Cluster) of `TONE_CLOCK_HOURS`. -/
def hourRecord5 : ToneClockHour :=
  { hour := 5, name := "Tritone Cluster", ipf := (1, 5), pitchClassSet := [0, 1, 6]
    isSymmetrical := false
    tessellation := some { transpositions := [[0, 1, 6], [2, 7, 8], [3, 4, 9], [5, 10, 11]]
                           steeringPattern := [0, 2, 3, 5] } }

/-- Hour 6 (Whole Tone) of `TONE_CLOCK_HOURS`. -/
def hourRecord6 : ToneClockHour :=
  { hour := 6, name := "Whole Tone", ipf := (2, 2), pitchClassSet := [0, 2, 4]
    isSymmetrical := true
    tessellation := some { transpositions := [[0, 2, 4], [1, 3, 5], [6, 8, 10], [7, 9, 11]]
                           steeringPattern := [0, 1, 6, 7] } }

/-- Hour 7 (Minor Pentatonic) of `TONE_CLOCK_HOURS`. -/
def hourRecord7 : ToneClockHour :=
  { hour := 7, name := "Minor Pentatonic", ipf := (2, 3), pitchClassSet := [0, 2, 5]
    isSymmetrical := false
    tessellation := some { transpositions := [[0, 2, 5], [3, 6, 8], [1, 9, 11], [4, 7, 10]]
                           steeringPattern := [0, 3, 1, 4] } }

/-- Hour 8 (Italian Sixth) of `TONE_CLOCK_HOURS`. -/
def hourRecord8 : ToneClockHour :=
  { hour := 8, name := "Italian Sixth", ipf := (2, 4), pitchClassSet := [0, 2, 6]
    isSymmetrical := true
    tessellation := some { transpositions := [[0, 2, 6], [1, 3, 7], [4, 8, 10], [5, 9, 11]]
                           steeringPattern := [0, 1, 4, 5] } }

/-- Hour 9 (Quartal) of `TONE_CLOCK_HOURS`. -/
def hourRecord9 : ToneClockHour :=
  { hour := 9, name := "Quartal", ipf := (2, 5), pitchClassSet := [0, 2, 7]
    isSymmetrical := true
    tessellation := some { transpositions := [[0, 2, 7], [1, 3, 8], [4, 6, 11], [5, 9, 10]]
                           steeringPattern := [0, 1, 4, 5] } }

/-- Hour 10 (Diminished) of `TONE_CLOCK_HOURS`; its trichord cannot tile the
12 notes, so its tessellation is `null` in the source. -/
def hourRecord10 : ToneClockHour :=
  { hour := 10, name := "Diminished", ipf := (3, 3), pitchClassSet := [0, 3, 6]
    isSymmetrical := true
    tessellation := none }

/-- Hour 11 (Major/Minor Triad) of `TONE_CLOCK_HOURS`. -/
def hourRecord11 : ToneClockHour :=
  { hour := 11, name := "Major/Minor Triad", ipf := (3, 4), pitchClassSet := [0, 3, 7]
    isSymmetrical := false
    tessellation := some { transpositions := [[0, 3, 7], [1, 4, 8], [2, 5, 9], [6, 10, 11]]
                           steeringPattern := [0, 1, 2, 6] } }

/-- Hour 12 (Augmented) of `TONE_CLOCK_HOURS`. -/
def hourRecord12 : ToneClockHour :=
  { hour := 12, name := "Augmented", ipf := (4, 4), pitchClassSet := [0, 4, 8]
    isSymmetrical := true
    tessellation := some { transpositions := [[0, 4, 8], [1, 5, 9], [2, 6, 10], [3, 7, 11]]
                           steeringPattern := [0, 1, 2, 3] } }

/-- The 12 hours of the tone clock (`TONE_CLOCK_HOURS` in `ToneClock.ts`). -/
def TONE_CLOCK_HOURS : List ToneClockHour :=
  [hourRecord1, hourRecord2, hourRecord3, hourRecord4, hourRecord5, hourRecord6,
   hourRecord7, hourRecord8, hourRecord9, hourRecord10, hourRecord11, hourRecord12]

/-- Lookup of an hour by clock position (`getHour` in `ToneClock.ts`). -/
def getHour (hourNumber : Int) : Option ToneClockHour :=
  TONE_CLOCK_HOURS.find? (fun h => h.hour = hourNumber)

/-- Generation of a trichord at a given transposition (`generateTrichord`):
adds the transposition mod 12 to each member of the prime-form set. -/
def generateTrichord (hour : ToneClockHour) (transposition : Nat) : List Nat :=
  hour.pitchClassSet.map (fun pc => (pc + transposition) % 12)

/-- Returns the precomputed tessellation trichords, or `none`
(`tessellate` in `ToneClock.ts`). -/
def tessellate (hour : ToneClockHour) : Option (List (List Nat)) :=
  hour.tessellation.map (fun t => t.transpositions)

/-- Derived tone-clock state (`ToneClockState` in `ToneClock.ts`). -/
structure ToneClockState where
  activeHour : ToneClockHour
  currentTrichord : List Nat
  tessellation : Option (List (List Nat))
  transpositionIndex : Nat
  noteIndex : Nat
  deriving DecidableEq, Repr

/-- Mapping of clock time to tone-clock harmony (`mapTimeToToneClock`).
Hours are `Int` (a JavaScript number may be 0, negative, or above 12);
minutes and seconds are the non-negative clock fields. -/
def mapTimeToToneClock (hours : Int) (minutes seconds : Nat) : ToneClockState :=
  let hourIndex : Int := if hours = 0 then 12 else if hours > 12 then hours - 12 else hours
  let activeHour := (getHour hourIndex).getD hourRecord1
  let transpositionIndex := minutes / 15 % 4
  let tess := tessellate activeHour
  let currentTrichord :=
    match tess with
    | some t => t.getD transpositionIndex []
    | none => generateTrichord activeHour (transpositionIndex * 3)
  { activeHour := activeHour
    currentTrichord := currentTrichord
    tessellation := tess
    transpositionIndex := transpositionIndex
    noteIndex := seconds % 3 }

/-- Substitute tessellation for hour 10 (`tessellateHourX` in
`ToneClock.ts`): three transpositions of the diminished-7th tetrachord. -/
def tessellateHourX : List (List Nat) :=
  [[0, 3, 6, 9], [1, 4, 7, 10], [2, 5, 8, 11]]

/-! ## Virtual time engine (`TimeDilator.ts`) -/

/-- Kind tag of a time transition event (`TimeEvent.type`). -/
inductive TimeEventType where
  | second : TimeEventType
  | minute : TimeEventType
  | hour : TimeEventType
  deriving DecidableEq, Repr

/-- A time transition event (`TimeEvent` in `TimeDilator.ts`). -/
structure TimeEvent where
  type : TimeEventType
  value : Int
  timestamp : Int
  deriving DecidableEq, Repr

/-- Seconds field of the calendar decomposition of a millisecond timestamp
(the `date.getSeconds()` read in `updateStateFromTimestamp`, modelled in
UTC with floor division so that timestamps before the epoch decompose the
same way `Date` does). -/
def decompSeconds (t : Int) : Int := (Int.fdiv t 1000).emod 60

/-- Minutes field of the calendar decomposition of a millisecond
timestamp. -/
def decompMinutes (t : Int) : Int := (Int.fdiv t 60000).emod 60

/-- Hours field in 12-hour format: `date.getHours() % 12 || 12` in
`updateStateFromTimestamp`. -/
def decompHours (t : Int) : Int :=
  let h := (Int.fdiv t 3600000).emod 12
  if h = 0 then 12 else h

/-- The part of the `TimeDilator` instance state that drives its `update`
tick: the virtual-time accumulator, the previous tick's integer fields, and
the direction/running flags. -/
structure DilatorState where
  currentVirtualTime : Int
  lastSecond : Int
  lastMinute : Int
  lastHour : Int
  isReverse : Bool
  isRunning : Bool
  deriving DecidableEq, Repr

/-- One tick of `TimeDilator.update`.  `deltaVirtual` is the already-scaled
non-negative delta (`deltaReal * speed` in the source; the floating-point
multiplication itself is outside the integer model, so the scaled result is
taken as the input).  Returns the new state together with the events
emitted during the tick, in emission order. -/
def dilatorUpdate (s : DilatorState) (deltaVirtual : Int) : DilatorState × List TimeEvent :=
  if s.isRunning = false then (s, [])
  else
    let vt := if s.isReverse then s.currentVirtualTime - deltaVirtual
              else s.currentVirtualTime + deltaVirtual
    let sec := decompSeconds vt
    let minute := decompMinutes vt
    let hr := decompHours vt
    let secEvents := if sec ≠ s.lastSecond then [TimeEvent.mk TimeEventType.second sec vt] else []
    let minEvents := if minute ≠ s.lastMinute then [TimeEvent.mk TimeEventType.minute minute vt] else []
    let hourEvents := if hr ≠ s.lastHour then [TimeEvent.mk TimeEventType.hour hr vt] else []
    ({ currentVirtualTime := vt, lastSecond := sec, lastMinute := minute, lastHour := hr
       isReverse := s.isReverse, isRunning := s.isRunning },
     secEvents ++ minEvents ++ hourEvents)

/-! ## Event delivery (`TimeDilator.emit`)

The source body is `this.callbacks.forEach(callback => callback(event))`.
A subscriber callback that may throw is modelled as a function into
`Except`; a thrown exception propagates out of `forEach`, so delivery
stops at the throwing callback. -/

/-- Result of `emit`: either every callback ran, or the first thrown
exception propagated to the caller. -/
def emitRun {ε α : Type} : List (TimeEvent → Except ε α) → TimeEvent → Except ε Unit
  | [], _ => Except.ok ()
  | cb :: rest, e =>
    match cb e with
    | Except.ok _ => emitRun rest e
    | Except.error err => Except.error err

/-- Reception record of `emit`: one flag per subscribed callback, `true`
exactly when that callback was invoked with the event.  Iteration stops
after a callback throws, so the callbacks after it are never invoked. -/
def emitReceived {ε α : Type} : List (TimeEvent → Except ε α) → TimeEvent → List Bool
  | [], _ => []
  | cb :: rest, e =>
    match cb e with
    | Except.ok _ => true :: emitReceived rest e
    | Except.error _ => true :: rest.map (fun _ => false)

/-- A sample event used to instantiate delivery facts. -/
def sampleEvent : TimeEvent := { type := TimeEventType.second, value := 0, timestamp := 0 }

/-- A subscriber callback that always throws. -/
def throwingCallback : TimeEvent → Except String Unit :=
  fun _ => Except.error "subscriber threw"

/-- A subscriber callback that always succeeds. -/
def okCallback : TimeEvent → Except String Unit :=
  fun _ => Except.ok ()

/-! ## Decibel values

JavaScript volume values in this code are either finite decibel numbers or
`-Infinity` (full mute).  They are modelled as an `Int` extended with a
bottom element, with `Math.min`/`Math.max` as order operations. -/

/-- A decibel value: a finite integer number of dB or `-Infinity`. -/
inductive Db where
  | negInf : Db
  | val : Int → Db
  deriving DecidableEq, Repr

/-- Order on decibel values, with `-Infinity` below every finite value. -/
def Db.le : Db → Db → Bool
  | Db.negInf, _ => true
  | Db.val _, Db.negInf => false
  | Db.val a, Db.val b => a ≤ b

/-- The `Math.min` of two decibel values. -/
def dbMin (a b : Db) : Db := if Db.le a b then a else b

/-- The `Math.max` of two decibel values. -/
def dbMax (a b : Db) : Db := if Db.le a b then b else a

/-! ## Synth presets and the store update (`presets.ts`, `useStore.ts`) -/

/-- A synth preset as the reconciliation logic sees it: the identity
fields `id` and `name` are modelled precisely (they are what
`updatePresetParameter` rewrites and what the preset-sync effects
compare); the remaining numeric payload (envelope, filter, effects,
detune, volume) is abstracted as a key-value list, which is all the
`[param]: value` object-spread update in `updatePresetParameter`
needs. -/
structure SynthPreset where
  id : String
  name : String
  settings : List (String × Int)
  deriving DecidableEq, Repr

/-- The base hour preset `H01` (Ethereal Sine) from `presets.ts`, with its
scalar payload fields. -/
def presetH01 : SynthPreset :=
  { id := "H01", name := "Ethereal Sine", settings := [("detune", 0), ("volume", -12)] }

/-- Leading-tag test used to model the JavaScript `startsWith` (the
built-in `String.startsWith` is not kernel-reducible, so the character
list is compared directly). -/
def strStartsWith (s p : String) : Bool := s.data.take p.data.length = p.data

/-- Trailing-tag test used to model the anchored regex match
`/ \x7bpattern\x7d$/`-style suffix checks. -/
def strEndsWith (s p : String) : Bool :=
  p.data.length ≤ s.data.length ∧ s.data.drop (s.data.length - p.data.length) = p.data

/-- The `id.replace(/^CUSTOM_/, '')` step of `updatePresetParameter`. -/
def stripCustomTag (s : String) : String :=
  if strStartsWith s "CUSTOM_" then s.drop 7 else s

/-- The `name.replace(/ \(Modified\)$/, '')` step of
`updatePresetParameter`. -/
def stripModifiedTag (s : String) : String :=
  if strEndsWith s " (Modified)" then s.dropRight 11 else s

/-- Override of one scalar field in the abstracted payload (the
`[param]: value` object-spread in `updatePresetParameter`). -/
def setSetting (ps : List (String × Int)) (param : String) (value : Int) : List (String × Int) :=
  (param, value) :: ps.filter (fun p => p.1 ≠ param)

/-- The store action `updatePresetParameter` (`useStore.ts`): produces a
new preset value whose id is `CUSTOM_` plus the base id and whose name is
the base name plus a `(Modified)` suffix. -/
def updatePresetParameter (p : SynthPreset) (param : String) (value : Int) : SynthPreset :=
  let baseName := stripModifiedTag p.name
  let baseId := stripCustomTag p.id
  { id := "CUSTOM_" ++ baseId
    name := baseName ++ " (Modified)"
    settings := setSetting p.settings param value }

/-! ## Preset-change reconciliation (main app component) -/

/-- Which audio-engine path a preset-sync effect takes: full channel
recreation (`createChannel`) or in-place parameter update
(`updateSynthParams`). -/
inductive SyncAction where
  | create : SyncAction
  | tweak : SyncAction
  deriving DecidableEq, Repr

/-- One run of a layer's preset-sync effect: the incoming preset's id is
compared against the previously-applied id; if different, `createChannel`
runs and the tracked id is updated, otherwise `updateSynthParams` runs. -/
def syncStep (preset : SynthPreset) (prevId : String) : SyncAction × String :=
  if preset.id ≠ prevId then (SyncAction.create, preset.id)
  else (SyncAction.tweak, prevId)

/-- Trace of consecutive parameter tweaks: each tweak rewrites the store
preset through `updatePresetParameter` and then runs the sync effect.
Returns the list of actions taken, in order. -/
def tweakTrace : SynthPreset → String → List (String × Int) → List SyncAction
  | _, _, [] => []
  | p, prevId, (param, value) :: rest =>
    let p2 := updatePresetParameter p param value
    let step := syncStep p2 prevId
    step.1 :: tweakTrace p2 step.2 rest

/-! ## Audio channel manager (`AudioEngine.ts`) -/

/-- Runtime state of one channel that the note bookkeeping and mixer
logic reads and writes: the list of currently-sounding notes, the volume
node's current target, and the configuring preset. -/
structure SynthChannel where
  activeNotes : List String
  volume : Db
  preset : SynthPreset
  deriving DecidableEq, Repr

/-- Lookup in the channel registry (`this.channels.get(id)`). -/
def assocLookup {α : Type} : List (String × α) → String → Option α
  | [], _ => none
  | (k, v) :: rest, id => if k = id then some v else assocLookup rest id

/-- Replacement of an existing entry in the channel registry
(`this.channels.set(id, ...)` for a key already present). -/
def assocSet {α : Type} : List (String × α) → String → α → List (String × α)
  | [], _, _ => []
  | (k, v) :: rest, id, nv =>
    if k = id then (k, nv) :: assocSet rest id nv else (k, v) :: assocSet rest id nv

/-- State of the audio engine visible to the claims: the channel registry,
the started flag, and the master volume node's value. -/
structure EngineState where
  channels : List (String × SynthChannel)
  isStarted : Bool
  masterVolume : Db
  deriving DecidableEq, Repr

/-- State with one channel's entry replaced (the common effect of the
operations below). -/
def withChannel (s : EngineState) (channelId : String) (ch : SynthChannel) : EngineState :=
  { s with channels := assocSet s.channels channelId ch }

/-- A call observed at the synthesis-library boundary. -/
inductive SynthCall where
  | attack (channelId : String) (notes : List String) : SynthCall
  | release (channelId : String) (notes : List String) : SynthCall
  deriving DecidableEq, Repr

/-- The `triggerAttackChord` operation: a missing channel or a
not-yet-started engine is a silent no-op; otherwise the synth attack fires
and the notes are appended to the channel's active-note list. -/
def triggerAttackChord (s : EngineState) (channelId : String) (notes : List String) :
    EngineState × List SynthCall :=
  match assocLookup s.channels channelId with
  | none => (s, [])
  | some ch =>
    if s.isStarted = false then (s, [])
    else
      let ch2 := { ch with activeNotes := ch.activeNotes ++ notes }
      (withChannel s channelId ch2, [SynthCall.attack channelId notes])

/-- The `triggerRelease` operation: releases exactly the tracked active
notes and clears the list; when the list is empty no release call is
made. -/
def triggerRelease (s : EngineState) (channelId : String) :
    EngineState × List SynthCall :=
  match assocLookup s.channels channelId with
  | none => (s, [])
  | some ch =>
    if s.isStarted = false then (s, [])
    else
      if ch.activeNotes.length > 0 then
        let ch2 := { ch with activeNotes := ([] : List String) }
        (withChannel s channelId ch2, [SynthCall.release channelId ch.activeNotes])
      else (s, [])

/-- The `setChannelVolume` operation: a missing channel is a no-op;
otherwise the volume node ramps to exactly the requested value (the ramp
endpoint is stored; no mute special case exists on this path). -/
def setChannelVolume (s : EngineState) (channelId : String) (volume : Db) : EngineState :=
  match assocLookup s.channels channelId with
  | none => s
  | some ch =>
    let ch2 := { ch with volume := volume }
    withChannel s channelId ch2

/-- The `setMasterVolume` operation: `Math.max(-60, Math.min(6, db))`. -/
def setMasterVolume (s : EngineState) (db : Db) : EngineState :=
  { s with masterVolume := dbMax (Db.val (-60)) (dbMin (Db.val 6) db) }

/-- The `volume` case of `updateParameter`: values at or below `-60`
become `-Infinity`, others are clamped to `[-60, 6]`. -/
def updateParameterVolume (s : EngineState) (channelId : String) (value : Db) : EngineState :=
  match assocLookup s.channels channelId with
  | none => s
  | some ch =>
    let newVol :=
      if Db.le value (Db.val (-60)) then Db.negInf
      else dbMax (Db.val (-60)) (dbMin (Db.val 6) value)
    let ch2 := { ch with volume := newVol }
    withChannel s channelId ch2

/-- The cached-value computation of `setArpVolume`: values at or below
`-60` become `-Infinity`, others are clamped to `[-60, 6]`. -/
def setArpVolumeValue (volumeDb : Db) : Db :=
  if Db.le volumeDb (Db.val (-60)) then Db.negInf
  else dbMax (Db.val (-60)) (dbMin (Db.val 6) volumeDb)

/-! ## Channel signal chain (`createChannel` connection order) -/

/-- Nodes of a channel's signal chain. -/
inductive ChainNode where
  | synthNode : ChainNode
  | filterNode : ChainNode
  | tremoloNode : ChainNode
  | delayNode : ChainNode
  | reverbNode : ChainNode
  | gateNode : ChainNode
  | volumeNode : ChainNode
  | masterNode : ChainNode
  deriving DecidableEq, Repr

open ChainNode in
/-- The `connect` calls of `createChannel`, in source order: synth to
filter, filter to gate, gate to tremolo, tremolo to delay, delay to
reverb, reverb to volume, volume to master. -/
def createChannelConnections : List (ChainNode × ChainNode) :=
  [(synthNode, filterNode), (filterNode, gateNode), (gateNode, tremoloNode),
   (tremoloNode, delayNode), (delayNode, reverbNode), (reverbNode, volumeNode),
   (volumeNode, masterNode)]

open ChainNode in
/-- Modelled from the spec: the connection order the specification claims
(synthesizer, filter, tremolo, delay, reverb, gate, channel volume,
master), as consecutive edges, for comparison with
`createChannelConnections`. -/
def specClaimedConnections : List (ChainNode × ChainNode) :=
  [(synthNode, filterNode), (filterNode, tremoloNode), (tremoloNode, delayNode),
   (delayNode, reverbNode), (reverbNode, gateNode), (gateNode, volumeNode),
   (volumeNode, masterNode)]

open ChainNode in
/-- The actual topological order of the chain, as a node list. -/
def createChannelChainOrder : List ChainNode :=
  [synthNode, filterNode, gateNode, tremoloNode, delayNode, reverbNode,
   volumeNode, masterNode]

/-! ## Arpeggiator (`Arpeggiator` in the audio engine source) -/

/-- Arpeggiator pattern kinds (`ArpPattern`). -/
inductive ArpPattern where
  | up : ArpPattern
  | down : ArpPattern
  | upDown : ArpPattern
  | downUp : ArpPattern
  | random : ArpPattern
  deriving DecidableEq, Repr

/-- Lexicographic character-list comparison modelling the default
JavaScript string ordering used by `Array.prototype.sort()`. -/
def charListLe : List Char → List Char → Bool
  | [], _ => true
  | _ :: _, [] => false
  | a :: as, b :: bs => if a = b then charListLe as bs else decide (a < b)

/-- String comparison for note names (JavaScript default sort order). -/
def strLe (a b : String) : Bool := charListLe a.data b.data

/-- Ordered insertion for the sort of the note pool. -/
def insertNote (s : String) : List String → List String
  | [] => [s]
  | t :: rest => if strLe s t then s :: t :: rest else t :: insertNote s rest

/-- The `[...this.notes].sort()` step of `generateSequence`. -/
def sortNotes : List String → List String
  | [] => []
  | s :: rest => insertNote s (sortNotes rest)

/-- Swap of two positions of a list (one step of the Fisher-Yates loop). -/
def listSwap {α : Type} (l : List α) (i j : Nat) : List α :=
  match l[i]?, l[j]? with
  | some a, some b => (l.set i b).set j a
  | _, _ => l

/-- The Fisher-Yates loop of the `random` pattern, counting the loop index
down to 1.  `rand i` stands for `Math.floor(Math.random() * (i + 1))` at
loop index `i`; `Math.random()` is below 1, so `rand i` is at most `i`. -/
def fyLoop {α : Type} (rand : Nat → Nat) : Nat → List α → List α
  | 0, l => l
  | Nat.succ n, l => fyLoop rand n (listSwap l (n + 1) (rand (n + 1)))

/-- The whole shuffle of the `random` pattern. -/
def fisherYates {α : Type} (rand : Nat → Nat) (l : List α) : List α :=
  fyLoop rand (l.length - 1) l

/-- The `generateSequence` method of the arpeggiator, parametrized by the
random source used by the `random` pattern. -/
def generateSequence (pattern : ArpPattern) (notes : List String) (rand : Nat → Nat) :
    List String :=
  if notes.length = 0 then []
  else
    let sorted := sortNotes notes
    match pattern with
    | ArpPattern.up => sorted
    | ArpPattern.down => sorted.reverse
    | ArpPattern.upDown =>
      if sorted.length ≤ 2 then sorted
      else sorted ++ ((sorted.drop 1).dropLast).reverse
    | ArpPattern.downUp =>
      if sorted.length ≤ 2 then sorted.reverse
      else
        let reversed := sorted.reverse
        reversed ++ ((reversed.drop 1).dropLast).reverse
    | ArpPattern.random => fisherYates rand sorted

/-- A concrete engine state used to instantiate the stateful theorems: two
registered channels, audio started, master volume at its constructor
default of -6 dB. -/
def sampleEngineState : EngineState :=
  { channels :=
      [("hour", { activeNotes := [], volume := Db.val (-12), preset := presetH01 }),
       ("minute", { activeNotes := ["A4"], volume := Db.val (-10), preset := presetH01 })]
    isStarted := true
    masterVolume := Db.val (-6) }

/-! ## Helper lemmas about `getHour` -/

/-- A successful `getHour` lookup returns a member of the table. -/
theorem getHour_mem {n : Int} {h : ToneClockHour} (hf : getHour n = some h) :
    h ∈ TONE_CLOCK_HOURS :=
  List.mem_of_find?_eq_some hf

/-- A successful `getHour` lookup returns a record with the requested
clock position. -/
theorem getHour_hour {n : Int} {h : ToneClockHour} (hf : getHour n = some h) :
    h.hour = n := by
  have := List.find?_some hf
  exact of_decide_eq_true this

/-- Every record in the table has a clock position between 1 and 12. -/
theorem hour_range : ∀ h ∈ TONE_CLOCK_HOURS, 1 ≤ h.hour ∧ h.hour ≤ 12 := by decide

/-- For clock positions 1 through 12 the lookup succeeds with the matching
record. -/
theorem getHour_some_of_bounds (n : Int) (h1 : 1 ≤ n) (h2 : n ≤ 12) :
    ∃ h, getHour n = some h ∧ h.hour = n := by
  interval_cases n <;> exact ⟨_, rfl, rfl⟩

/-- Outside 1 through 12 the lookup fails. -/
theorem getHour_none_of_out (n : Int) (hn : n < 1 ∨ 12 < n) : getHour n = none := by
  apply List.find?_eq_none.mpr
  intro x hx
  simp only [decide_eq_true_eq]
  intro hEq
  have := hour_range x hx
  omega

/-! ## Claim C5: deterministic time-to-harmony mapping -/

/-- C5: `mapTimeToToneClock` is a pure function of (hours, minutes,
seconds); for minutes in 0..59 the transposition index is
`floor(minutes / 15) mod 4`; for seconds in 0..59 the note index is
`seconds mod 3`; and the current trichord is
`tessellation[transpositionIndex]` when the active hour has a
tessellation, else `generateTrichord(activeHour, transpositionIndex * 3)`. -/
theorem mapTime_index_and_trichord (hours : Int) (minutes seconds : Nat)
    (hm : minutes < 60) (hs : seconds < 60) :
    (mapTimeToToneClock hours minutes seconds).transpositionIndex = minutes / 15 % 4 ∧
    (mapTimeToToneClock hours minutes seconds).noteIndex = seconds % 3 ∧
    (mapTimeToToneClock hours minutes seconds).tessellation
      = tessellate (mapTimeToToneClock hours minutes seconds).activeHour ∧
    (mapTimeToToneClock hours minutes seconds).currentTrichord =
      (match tessellate (mapTimeToToneClock hours minutes seconds).activeHour with
       | some t => t.getD (minutes / 15 % 4) []
       | none => generateTrichord (mapTimeToToneClock hours minutes seconds).activeHour
           (minutes / 15 % 4 * 3)) :=
  ⟨rfl, rfl, rfl, rfl⟩

/-- C5 witness: the mapping at 3:44:17 selects transposition index 2 and
note index 2, and the trichord is the third tessellation group of hour
3. -/
theorem mapTime_index_and_trichord_witness :
    (mapTimeToToneClock 3 44 17).transpositionIndex = 2 ∧
    (mapTimeToToneClock 3 44 17).noteIndex = 2 := by
  have h := mapTime_index_and_trichord 3 44 17 (by decide) (by decide)
  exact ⟨h.1.trans (by decide), h.2.1.trans (by decide)⟩

/-! ## Claim C6: tessellations tile the chromatic scale -/

/-- C6: for every hour whose tessellation is non-null, the 4 tessellation
trichords flattened are a permutation of the 12 pitch classes (no
duplicates, no omissions); the only hour without a tessellation is hour 10
(Diminished); and the substitute tetrachord scheme `tessellateHourX`
covers all 12 pitch classes exactly once in 3 transpositions. -/
theorem tessellations_tile_chromatic :
    (∀ h ∈ TONE_CLOCK_HOURS, ∀ t ∈ h.tessellation,
        t.transpositions.length = 4 ∧
        List.Perm t.transpositions.flatten (List.range 12)) ∧
    (∀ h ∈ TONE_CLOCK_HOURS, h.tessellation = none → h.hour = 10) ∧
    hourRecord10.hour = 10 ∧ hourRecord10.tessellation = none ∧
    tessellateHourX.length = 3 ∧
    List.Perm tessellateHourX.flatten (List.range 12) := by decide

/-! ## Claim C10: totality of `mapTimeToToneClock` over all integer hours -/

/-- C10: `mapTimeToToneClock` is total over all integer hours: the active
hour is always one of the 12 table records; an hours value of 0 is
normalized to 12; hours above 12 (up to 24) are reduced by 12; and when
the lookup still fails (negative hours, or hours of 25 and beyond) the
function falls back to the hour-1 record. -/
theorem mapTime_total_over_hours (hours : Int) (minutes seconds : Nat) :
    (mapTimeToToneClock hours minutes seconds).activeHour ∈ TONE_CLOCK_HOURS ∧
    (hours = 0 → (mapTimeToToneClock hours minutes seconds).activeHour.hour = 12) ∧
    (12 < hours → hours ≤ 24 →
      (mapTimeToToneClock hours minutes seconds).activeHour.hour = hours - 12) ∧
    (hours < 0 ∨ 25 ≤ hours →
      (mapTimeToToneClock hours minutes seconds).activeHour = hourRecord1) := by
  have hactive : (mapTimeToToneClock hours minutes seconds).activeHour
      = (getHour (if hours = 0 then 12 else if hours > 12 then hours - 12 else hours)).getD
          hourRecord1 := rfl
  refine ⟨?_, ?_, ?_, ?_⟩
  · rw [hactive]
    cases hfind : getHour (if hours = 0 then 12 else if hours > 12 then hours - 12 else hours) with
    | none => exact by decide
    | some h => exact getHour_mem hfind
  · intro h0
    subst h0
    rfl
  · intro hgt hle
    have h0 : ¬ hours = 0 := by omega
    rw [hactive, if_neg h0, if_pos hgt]
    obtain ⟨h, hfind, hh⟩ := getHour_some_of_bounds (hours - 12) (by omega) (by omega)
    rw [hfind]
    exact hh
  · intro hout
    have h0 : ¬ hours = 0 := by omega
    rw [hactive, if_neg h0]
    rcases hout with hneg | hbig
    · have hn2 : ¬ hours > 12 := by omega
      rw [if_neg hn2, getHour_none_of_out hours (Or.inl (by omega))]
      rfl
    · have hgt : hours > 12 := by omega
      rw [if_pos hgt, getHour_none_of_out (hours - 12) (Or.inr (by omega))]
      rfl

/-- C10 witness: hours 0 maps to the hour-12 record, hours 22 reduces to
hour 10, and hours -3 falls back to the hour-1 record. -/
theorem mapTime_total_over_hours_witness :
    (mapTimeToToneClock 0 5 5).activeHour.hour = 12 ∧
    (mapTimeToToneClock 22 0 0).activeHour.hour = 10 ∧
    (mapTimeToToneClock (-3) 0 0).activeHour = hourRecord1 := by
  refine ⟨(mapTime_total_over_hours 0 5 5).2.1 rfl, ?_, ?_⟩
  · exact ((mapTime_total_over_hours 22 0 0).2.2.1 (by decide) (by decide)).trans (by decide)
  · exact (mapTime_total_over_hours (-3) 0 0).2.2.2 (Or.inl (by decide))

/-! ## Claim C4: per-tick event emission -/

/-- Helper: the kinds of the events emitted by one tick form a sublist of
the fixed order second, minute, hour. -/
theorem dilatorUpdate_kinds_sublist (s : DilatorState) (d : Int) :
    ((dilatorUpdate s d).2.map (fun e => e.type)).Sublist
      [TimeEventType.second, TimeEventType.minute, TimeEventType.hour] := by
  unfold dilatorUpdate
  split
  · simp
  · split_ifs <;> simp <;> split_ifs <;> simp

/-- C4: within a single tick of the virtual time engine, at most one event
of each kind is emitted (the kind list has no duplicates), even when the
scaled delta skipped several integer seconds, and the events that do fire
are delivered in the fixed order second, then minute, then hour (the kind
list is a sublist of that fixed order). -/
theorem dilator_tick_at_most_one_each_in_order (s : DilatorState) (d : Int) :
    ((dilatorUpdate s d).2.map (fun e => e.type)).Sublist
      [TimeEventType.second, TimeEventType.minute, TimeEventType.hour] ∧
    ((dilatorUpdate s d).2.map (fun e => e.type)).Nodup :=
  ⟨dilatorUpdate_kinds_sublist s d,
   (by decide :
     ([TimeEventType.second, TimeEventType.minute, TimeEventType.hour]).Nodup).sublist
       (dilatorUpdate_kinds_sublist s d)⟩

/-! ## Claim C2: subscriber isolation in `emit` -/

/-- C2 counterexample: `emit` iterates the callback map with `forEach` and
no per-callback protection, so after the first subscriber throws, the
second subscriber never receives the event, and the exception propagates
out of `emit`; the claimed property (every subscriber still receives the
event when one throws) is false. -/
theorem emit_isolation_counterexample :
    emitReceived [throwingCallback, okCallback] sampleEvent = [true, false] ∧
    emitRun [throwingCallback, okCallback] sampleEvent
      = Except.error "subscriber threw" ∧
    ¬ (∀ (cbs : List (TimeEvent → Except String Unit)) (e : TimeEvent),
        ∀ b ∈ emitReceived cbs e, b = true) := by
  refine ⟨rfl, rfl, fun hall => ?_⟩
  have hmem : false ∈ emitReceived [throwingCallback, okCallback] sampleEvent := by
    have he : emitReceived [throwingCallback, okCallback] sampleEvent = [true, false] := rfl
    rw [he]
    decide
  exact Bool.false_ne_true (hall _ _ false hmem)

/-- C2 amended: delivery is not isolated per callback: when the callbacks
before some subscriber succeed and that subscriber throws, the subscribers
iterated before it (and the throwing one) receive the event, every
subscriber after it does not, and the exception propagates out of
`emit`. -/
theorem emit_stops_at_throwing_subscriber {ε α : Type} (pre post : List (TimeEvent → Except ε α))
    (cb : TimeEvent → Except ε α) (e : TimeEvent) (err : ε)
    (hpre : ∀ c ∈ pre, ∃ u, c e = Except.ok u) (hcb : cb e = Except.error err) :
    emitReceived (pre ++ cb :: post) e
      = pre.map (fun _ => true) ++ true :: post.map (fun _ => false) ∧
    emitRun (pre ++ cb :: post) e = Except.error err := by
  induction pre with
  | nil => simp [emitReceived, emitRun, hcb]
  | cons c cs ih =>
    obtain ⟨u, hu⟩ := hpre c (List.mem_cons_self c cs)
    have h2 := ih (fun x hx => hpre x (List.mem_cons_of_mem c hx))
    simp [emitReceived, emitRun, hu, h2.1, h2.2]

/-- C2 amended witness: with three subscribers of which the second throws,
the first two receive the event and the third does not. -/
theorem emit_stops_at_throwing_subscriber_witness :
    emitReceived [okCallback, throwingCallback, okCallback] sampleEvent
      = [true, true, false] := by
  have hpre : ∀ c ∈ [okCallback], ∃ u : Unit, c sampleEvent = Except.ok u := by
    intro c hc
    simp only [List.mem_singleton] at hc
    subst hc
    exact ⟨(), rfl⟩
  have h := emit_stops_at_throwing_subscriber [okCallback] [okCallback] throwingCallback
    sampleEvent "subscriber threw" hpre rfl
  simpa using h.1

/-! ## Helper lemmas about the channel registry -/

/-- Replacing a key's value makes subsequent lookups of that key return
the new value (when the key was present). -/
theorem assocLookup_assocSet_self {α : Type} (l : List (String × α)) (id : String) (v : α) :
    assocLookup (assocSet l id v) id = (assocLookup l id).map (fun _ => v) := by
  induction l with
  | nil => rfl
  | cons p rest ih =>
    obtain ⟨k, w⟩ := p
    by_cases hk : k = id <;> simp [assocLookup, assocSet, hk, ih]

/-- Replacing one key's value leaves lookups of other keys unchanged. -/
theorem assocLookup_assocSet_other {α : Type} (l : List (String × α)) (id k : String) (v : α)
    (hne : k ≠ id) : assocLookup (assocSet l id v) k = assocLookup l k := by
  induction l with
  | nil => rfl
  | cons p rest ih =>
    obtain ⟨a, w⟩ := p
    by_cases ha : a = id <;> by_cases hak : a = k <;>
      simp_all [assocLookup, assocSet]

/-- Reduction of `triggerAttackChord` on a present channel with audio
started. -/
theorem triggerAttackChord_eq (s : EngineState) (cid : String) (notes : List String)
    (ch : SynthChannel) (hch : assocLookup s.channels cid = some ch)
    (hs : s.isStarted = true) :
    triggerAttackChord s cid notes =
      (withChannel s cid { ch with activeNotes := ch.activeNotes ++ notes },
       [SynthCall.attack cid notes]) := by
  simp [triggerAttackChord, hch, hs]

/-- Reduction of `triggerRelease` on a present channel with audio started
and a non-empty active-note list. -/
theorem triggerRelease_eq_active (s : EngineState) (cid : String)
    (ch : SynthChannel) (hch : assocLookup s.channels cid = some ch)
    (hs : s.isStarted = true) (hact : ch.activeNotes ≠ []) :
    triggerRelease s cid =
      (withChannel s cid { ch with activeNotes := [] },
       [SynthCall.release cid ch.activeNotes]) := by
  have hlen : ch.activeNotes.length > 0 := List.length_pos.mpr hact
  simp [triggerRelease, hch, hs, hlen]

/-- Reduction of `triggerRelease` on a present channel whose active-note
list is empty: a complete no-op. -/
theorem triggerRelease_eq_empty (s : EngineState) (cid : String)
    (ch : SynthChannel) (hch : assocLookup s.channels cid = some ch)
    (hact : ch.activeNotes = []) :
    triggerRelease s cid = (s, []) := by
  simp [triggerRelease, hch, hact]

/-! ## Claim C8: attack/release pairing -/

/-- C8: on a channel with an empty active-note list,
`triggerAttackChord ["C3","E3","G3"]` followed by `triggerRelease`
releases exactly those three notes and leaves the active-note list empty;
a second `triggerRelease` is a no-op (no state change and no release call
to the synthesis library); and the bookkeeping of every other channel is
untouched. -/
theorem attack_release_pairing (s : EngineState) (cid : String) (ch : SynthChannel)
    (hs : s.isStarted = true) (hch : assocLookup s.channels cid = some ch)
    (hempty : ch.activeNotes = []) :
    (triggerAttackChord s cid ["C3", "E3", "G3"]).2
      = [SynthCall.attack cid ["C3", "E3", "G3"]] ∧
    (triggerRelease (triggerAttackChord s cid ["C3", "E3", "G3"]).1 cid).2
      = [SynthCall.release cid ["C3", "E3", "G3"]] ∧
    (∃ ch2, assocLookup
        (triggerRelease (triggerAttackChord s cid ["C3", "E3", "G3"]).1 cid).1.channels cid
        = some ch2 ∧ ch2.activeNotes = []) ∧
    (triggerRelease
        (triggerRelease (triggerAttackChord s cid ["C3", "E3", "G3"]).1 cid).1 cid).2
      = [] ∧
    (triggerRelease
        (triggerRelease (triggerAttackChord s cid ["C3", "E3", "G3"]).1 cid).1 cid).1
      = (triggerRelease (triggerAttackChord s cid ["C3", "E3", "G3"]).1 cid).1 ∧
    (∀ other, other ≠ cid →
      assocLookup
        (triggerRelease
          (triggerRelease (triggerAttackChord s cid ["C3", "E3", "G3"]).1 cid).1 cid).1.channels
        other
      = assocLookup s.channels other) := by
  obtain ⟨an, vol, pres⟩ := ch
  simp only at hempty
  subst hempty
  have h1 := triggerAttackChord_eq s cid ["C3", "E3", "G3"] ⟨[], vol, pres⟩ hch hs
  rw [h1]
  simp only [List.nil_append]
  have hch1 : assocLookup
      (withChannel s cid ⟨["C3", "E3", "G3"], vol, pres⟩).channels cid
      = some ⟨["C3", "E3", "G3"], vol, pres⟩ := by
    simp [withChannel, assocLookup_assocSet_self, hch]
  have h2 := triggerRelease_eq_active _ cid ⟨["C3", "E3", "G3"], vol, pres⟩ hch1 hs
      (by simp)
  rw [h2]
  have hch2 : assocLookup
      (withChannel (withChannel s cid ⟨["C3", "E3", "G3"], vol, pres⟩) cid
        ⟨[], vol, pres⟩).channels cid
      = some ⟨[], vol, pres⟩ := by
    simp [withChannel, assocLookup_assocSet_self, hch]
  have h3 := triggerRelease_eq_empty _ cid ⟨[], vol, pres⟩ hch2 rfl
  rw [h3]
  refine ⟨by simp, by simp, ⟨⟨[], vol, pres⟩, hch2, rfl⟩, by simp, by simp, ?_⟩
  intro other hother
  simp [withChannel, assocLookup_assocSet_other _ _ _ _ hother]

/-- C8 witness: the pairing on the sample engine state's hour channel. -/
theorem attack_release_pairing_witness :
    (triggerRelease (triggerAttackChord sampleEngineState "hour" ["C3", "E3", "G3"]).1 "hour").2
      = [SynthCall.release "hour" ["C3", "E3", "G3"]] ∧
    (triggerRelease
        (triggerRelease
          (triggerAttackChord sampleEngineState "hour" ["C3", "E3", "G3"]).1 "hour").1 "hour").2
      = [] := by
  have h := attack_release_pairing sampleEngineState "hour"
    { activeNotes := [], volume := Db.val (-12), preset := presetH01 } rfl rfl rfl
  exact ⟨h.2.1, h.2.2.2.1⟩

/-! ## Claim C1: preset-change reconciliation -/

/-- Helper: once a preset's id carries the `CUSTOM_` tag of `H01`, another
parameter tweak derives the same id again. -/
theorem updateParam_id_custom (p : SynthPreset) (k : String) (v : Int)
    (hid : p.id = "CUSTOM_H01") : (updatePresetParameter p k v).id = "CUSTOM_H01" := by
  have h : (updatePresetParameter p k v).id = "CUSTOM_" ++ stripCustomTag p.id := rfl
  rw [h, hid]
  decide

/-- Helper: with the previously-applied id already `CUSTOM_H01`, every
further tweak routes to the in-place update path. -/
theorem tweakTrace_custom (ts : List (String × Int)) :
    ∀ p : SynthPreset, p.id = "CUSTOM_H01" →
      tweakTrace p "CUSTOM_H01" ts = List.replicate ts.length SyncAction.tweak := by
  induction ts with
  | nil => intro p hp; rfl
  | cons t rest ih =>
    intro p hp
    obtain ⟨k, v⟩ := t
    have hid := updateParam_id_custom p k v hp
    simp [tweakTrace, syncStep, hid, ih _ hid, List.replicate_succ]

/-- C1 counterexample: the very first parameter tweak of the pristine base
preset `H01` changes the id from `H01` to `CUSTOM_H01`, so the sync effect
routes it to `createChannel`: the channel is recreated although only a
parameter was tweaked and no different base preset was selected.  In a run
of 50 consecutive tweaks the recreation occurs, so the claimed
never-recreated property is false. -/
theorem tweak_recreates_counterexample :
    tweakTrace presetH01 "H01" [("volume", -10)] = [SyncAction.create] ∧
    SyncAction.create ∈ tweakTrace presetH01 "H01" (List.replicate 50 ("volume", -10)) ∧
    ¬ (∀ (p : SynthPreset) (ts : List (String × Int)),
        SyncAction.create ∉ tweakTrace p p.id ts) := by
  refine ⟨by decide, by decide, fun hall => ?_⟩
  exact hall presetH01 [("volume", -10)] (by decide)

/-- C1 amended: the reconciliation comparison is as described (different
id swaps via `createChannel`, identical id tweaks via
`updateSynthParams`), but a consecutive run of parameter tweaks on the
base preset `H01` recreates the channel exactly once, at the first tweak
(whose derived id `CUSTOM_H01` differs from the applied `H01`); every
subsequent tweak derives the same `CUSTOM_H01` id and routes to
`updateSynthParams`, and only that first id transition or selecting a
different preset id triggers `createChannel`. -/
theorem tweaks_recreate_once_amended (k : String) (v : Int) (ts : List (String × Int)) :
    (∀ (q : SynthPreset) (pid : String), q.id ≠ pid →
        syncStep q pid = (SyncAction.create, q.id)) ∧
    (∀ (q : SynthPreset) (pid : String), q.id = pid →
        syncStep q pid = (SyncAction.tweak, pid)) ∧
    tweakTrace presetH01 "H01" ((k, v) :: ts)
      = SyncAction.create :: List.replicate ts.length SyncAction.tweak := by
  refine ⟨?_, ?_, ?_⟩
  · intro q pid h
    simp [syncStep, h]
  · intro q pid h
    simp [syncStep, h]
  · have hid1 : (updatePresetParameter presetH01 k v).id = "CUSTOM_H01" := by
      have h : (updatePresetParameter presetH01 k v).id
          = "CUSTOM_" ++ stripCustomTag presetH01.id := rfl
      rw [h]
      decide
    have hne : ("CUSTOM_H01" : String) ≠ "H01" := by decide
    simp [tweakTrace, syncStep, hid1, hne, tweakTrace_custom ts _ hid1]

/-- C1 amended witness: three consecutive tweaks of `H01` produce one
`createChannel` followed by two `updateSynthParams` routings. -/
theorem tweaks_recreate_once_amended_witness :
    tweakTrace presetH01 "H01" [("volume", -10), ("volume", -11), ("detune", 3)]
      = [SyncAction.create, SyncAction.tweak, SyncAction.tweak] := by
  have h := (tweaks_recreate_once_amended "volume" (-10)
    [("volume", -11), ("detune", 3)]).2.2
  simpa using h

/-! ## Claim C3: volume floor behaviour -/

/-- C3 counterexample: `setChannelVolume` at -60 dB ramps the channel
volume to exactly -60 dB (not `-Infinity`), and `setMasterVolume` at -70
dB clamps the master volume to -60 dB (not `-Infinity`): neither call
produces full mute at or below the -60 dB floor. -/
theorem volume_floor_counterexample :
    assocLookup (setChannelVolume sampleEngineState "hour" (Db.val (-60))).channels "hour"
      = some { activeNotes := [], volume := Db.val (-60), preset := presetH01 } ∧
    Db.val (-60) ≠ Db.negInf ∧
    (setMasterVolume sampleEngineState (Db.val (-70))).masterVolume = Db.val (-60) ∧
    (setMasterVolume sampleEngineState (Db.val (-70))).masterVolume ≠ Db.negInf := by
  refine ⟨by decide, by decide, by decide, by decide⟩

/-- C3 amended: `setChannelVolume` ramps the channel volume to exactly
the requested value (so mute happens only when the caller passes
`-Infinity`, as the mixer mute path does); `setMasterVolume` clamps to
[-60, 6] and never produces `-Infinity`; the at-or-below--60-to-mute
conversion lives in the `volume` case of `updateParameter` and in
`setArpVolume`, where -60 and below becomes `-Infinity` while -59 stays
-59. -/
theorem volume_paths_amended :
    (∀ (s : EngineState) (cid : String) (v : Db) (ch : SynthChannel),
        assocLookup s.channels cid = some ch →
        assocLookup (setChannelVolume s cid v).channels cid
          = some { ch with volume := v }) ∧
    (∀ (s : EngineState) (v : Db),
        (setMasterVolume s v).masterVolume = dbMax (Db.val (-60)) (dbMin (Db.val 6) v) ∧
        (setMasterVolume s v).masterVolume ≠ Db.negInf) ∧
    (∀ (s : EngineState) (cid : String) (v : Db) (ch : SynthChannel),
        assocLookup s.channels cid = some ch → Db.le v (Db.val (-60)) = true →
        assocLookup (updateParameterVolume s cid v).channels cid
          = some { ch with volume := Db.negInf }) ∧
    (∀ v : Db, Db.le v (Db.val (-60)) = true → setArpVolumeValue v = Db.negInf) ∧
    setArpVolumeValue (Db.val (-59)) = Db.val (-59) := by
  refine ⟨?_, ?_, ?_, ?_, by decide⟩
  · intro s cid v ch hch
    simp [setChannelVolume, hch, withChannel, assocLookup_assocSet_self]
  · intro s v
    refine ⟨rfl, ?_⟩
    show dbMax (Db.val (-60)) (dbMin (Db.val 6) v) ≠ Db.negInf
    cases v with
    | negInf => decide
    | val x =>
      unfold dbMax dbMin Db.le
      split <;> split <;> simp_all
  · intro s cid v ch hch hle
    simp [updateParameterVolume, hch, hle, withChannel, assocLookup_assocSet_self]
  · intro v hle
    simp [setArpVolumeValue, hle]

/-- C3 amended witness: the channel ramp target at -60 is -60, and the
arp-volume conversion maps -60 to `-Infinity`. -/
theorem volume_paths_amended_witness :
    assocLookup (setChannelVolume sampleEngineState "hour" (Db.val (-60))).channels "hour"
      = some { activeNotes := [], volume := Db.val (-60), preset := presetH01 } ∧
    setArpVolumeValue (Db.val (-60)) = Db.negInf := by
  have h := volume_paths_amended
  exact ⟨h.1 sampleEngineState "hour" (Db.val (-60))
      { activeNotes := [], volume := Db.val (-12), preset := presetH01 } rfl,
    h.2.2.2.1 (Db.val (-60)) (by decide)⟩

/-! ## Claim C7: signal-chain connection order -/

/-- C7 counterexample: the chain built by `createChannel` is not the
claimed order; in the source the gate is connected between the filter and
the tremolo, not between the reverb and the channel volume. -/
theorem chain_order_counterexample :
    createChannelConnections ≠ specClaimedConnections ∧
    (ChainNode.filterNode, ChainNode.gateNode) ∈ createChannelConnections ∧
    (ChainNode.reverbNode, ChainNode.gateNode) ∉ createChannelConnections := by
  refine ⟨by decide, by decide, by decide⟩

/-- C7 amended: `createChannel` connects the chain as one linear path in
the fixed order synthesizer, filter, gate, tremolo, delay, reverb,
channel volume, master. -/
theorem chain_order_amended :
    createChannelConnections
      = createChannelChainOrder.zip createChannelChainOrder.tail := by decide

/-! ## Claim C9: arpeggiator sequence generation -/

/-- C9: with the note pool [E4, C4, G4], pattern up yields [C4, E4, G4],
pattern down yields [G4, E4, C4], pattern up-down yields [C4, E4, G4, E4]
(no duplicated endpoints), and pattern random yields a permutation of the
same three notes for every admissible random source. -/
theorem arp_pattern_sequences (rand : Nat → Nat) (h2 : rand 2 ≤ 2) (h1 : rand 1 ≤ 1) :
    generateSequence ArpPattern.up ["E4", "C4", "G4"] rand = ["C4", "E4", "G4"] ∧
    generateSequence ArpPattern.down ["E4", "C4", "G4"] rand = ["G4", "E4", "C4"] ∧
    generateSequence ArpPattern.upDown ["E4", "C4", "G4"] rand = ["C4", "E4", "G4", "E4"] ∧
    List.Perm (generateSequence ArpPattern.random ["E4", "C4", "G4"] rand)
      ["C4", "E4", "G4"] := by
  refine ⟨rfl, rfl, rfl, ?_⟩
  have base : generateSequence ArpPattern.random ["E4", "C4", "G4"] rand
      = listSwap (listSwap ["C4", "E4", "G4"] 2 (rand 2)) 1 (rand 1) := rfl
  rw [base]
  have hr2 : rand 2 = 0 ∨ rand 2 = 1 ∨ rand 2 = 2 := by omega
  have hr1 : rand 1 = 0 ∨ rand 1 = 1 := by omega
  rcases hr2 with h | h | h <;> rcases hr1 with g | g <;> rw [h, g] <;> decide

/-- C9 witness: the four patterns at the random source that always picks
index 0. -/
theorem arp_pattern_sequences_witness :
    generateSequence ArpPattern.up ["E4", "C4", "G4"] (fun _ => 0) = ["C4", "E4", "G4"] ∧
    List.Perm (generateSequence ArpPattern.random ["E4", "C4", "G4"] (fun _ => 0))
      ["C4", "E4", "G4"] := by
  have h := arp_pattern_sequences (fun _ => 0) (by decide) (by decide)
  exact ⟨h.1, h.2.2.2⟩

end SynthClock
